import Mathlib

/-!
Verification of the llm-comparison concurrent benchmark core.

The repository holds two near-identical Python scripts,
src/kubernetes_vllm_concurrent_benchmark.py and src/kind-setup/kind_benchmark.py.
Their shared logical core is embedded here:

- TEST_PROMPTS: the fixed ten-entry prompt pool.
- send_completion_request: builds one RequestOutcome record from the network
  result of a single completion call (the network behaviour and the measured
  latency are explicit parameters, since the real function performs the HTTP
  call and the timing itself).
- run_concurrent_benchmark_tasks: the deterministic task-building loop of
  run_concurrent_benchmark, producing the list of request specifications
  (request id and prompt) in submission order; asyncio.gather returns results
  in task order, so batchResults composes the two in that order.
- analyze_results: the statistics aggregation, returning none exactly when no
  outcome succeeded. Latencies and durations are modelled as exact rationals;
  numpy mean, median, percentile (linear interpolation on the sorted sample,
  the numpy default; numpy median coincides with the 50th percentile under
  this rule), min and max are embedded as npMean, npPercentile, npMin, npMax.
- mainSweep: the level loop of main, which appends a statistics record only
  when analyze_results returns one.
-/

namespace LlmBenchmark

/-- The fixed prompt pool TEST_PROMPTS, ten strings, identical in both
scripts. -/
def TEST_PROMPTS : List String :=
  [ "What is the capital of France?"
  , "Explain quantum computing in simple terms."
  , "Write a short poem about nature."
  , "What are the benefits of exercise?"
  , "Describe the water cycle."
  , "What is machine learning?"
  , "How does photosynthesis work?"
  , "What is the theory of relativity?"
  , "Explain blockchain technology."
  , "What are the layers of Earth\x27s atmosphere?" ]

/-- Token usage data parsed from a successful response; the scripts default
both fields to zero when absent, so they are non-negative integers here. -/
structure UsageData where
  completion_tokens : Nat
  total_tokens : Nat
deriving DecidableEq

/-- A successful network response: usage data plus the first choice text. -/
structure NetSuccess where
  usage : UsageData
  text : String
deriving DecidableEq

/-- Result of the network call inside send_completion_request: either a parsed
response or an exception message (transport, timeout or parse failure). -/
inductive NetResult where
  | ok (resp : NetSuccess)
  | exn (msg : String)
deriving DecidableEq

/-- The per-request outcome record returned by send_completion_request. -/
structure RequestOutcome where
  request_id : Nat
  prompt : String
  latency : ℚ
  completion_tokens : Nat
  total_tokens : Nat
  tokens_per_second : ℚ
  success : Bool
  response : Option String
  error : Option String
deriving DecidableEq

/-- Embedding of send_completion_request (lines 36-90 of the kubernetes
script, 37-90 of the kind script). The network result and the measured
latency are parameters; the two branches mirror the try and except blocks. -/
def send_completion_request (prompt : String) (request_id : Nat)
    (net : NetResult) (latency : ℚ) : RequestOutcome :=
  match net with
  | NetResult.ok resp =>
      let ct := resp.usage.completion_tokens
      { request_id := request_id
        prompt := prompt.take 50 ++ "..."
        latency := latency
        completion_tokens := ct
        total_tokens := resp.usage.total_tokens
        tokens_per_second := if 0 < latency then (ct : ℚ) / latency else 0
        success := true
        response := some (resp.text.take 100)
        error := none }
  | NetResult.exn msg =>
      { request_id := request_id
        prompt := prompt.take 50 ++ "..."
        latency := latency
        completion_tokens := 0
        total_tokens := 0
        tokens_per_second := 0
        success := false
        response := none
        error := some msg }

/-- C2: for every outcome of send_completion_request, tokens_per_second is
the completion token count divided by the latency when the latency is
positive and zero otherwise, it is never negative, and it is zero whenever
the outcome failed. -/
theorem tokens_per_second_spec (p : String) (rid : Nat) (net : NetResult) (l : ℚ) :
    ((send_completion_request p rid net l).tokens_per_second
      = if 0 < l then ((send_completion_request p rid net l).completion_tokens : ℚ) / l else 0)
    ∧ 0 ≤ (send_completion_request p rid net l).tokens_per_second
    ∧ ((send_completion_request p rid net l).success = false →
        (send_completion_request p rid net l).tokens_per_second = 0) := by
  cases net with
  | ok resp =>
      refine ⟨rfl, ?_, ?_⟩
      · show 0 ≤ if 0 < l then ((resp.usage.completion_tokens : ℚ)) / l else 0
        split
        · exact div_nonneg (Nat.cast_nonneg _) (le_of_lt (by assumption))
        · exact le_refl 0
      · intro h
        exact absurd h (by simp [send_completion_request])
  | exn msg =>
      refine ⟨?_, le_refl 0, fun _ => rfl⟩
      show (0 : ℚ) = if 0 < l then ((0 : Nat) : ℚ) / l else 0
      simp

/-- Witness for C2 at a concrete failed request. -/
theorem tokens_per_second_spec_witness :
    (send_completion_request "p" 0 (NetResult.exn "boom") 1).tokens_per_second = 0 :=
  (tokens_per_second_spec "p" 0 (NetResult.exn "boom") 1).2.2 rfl

/-- A request specification generated by the task-building loop of
run_concurrent_benchmark: the assigned request id and the chosen prompt. -/
structure RequestSpec where
  request_id : Nat
  prompt : String
deriving DecidableEq

/-- Embedding of the task-building loop of run_concurrent_benchmark
(kubernetes script lines 107-123, kind script lines 104-112): two nested
loops over the session count and the per-session request count, an explicit
running counter starting at zero, each iteration appending one specification
whose prompt is the pool entry at the counter modulo the pool size. -/
def run_concurrent_benchmark_tasks (num_concurrent num_requests_per_session : Nat) :
    List RequestSpec :=
  ((List.range num_concurrent).foldl
    (fun st _ =>
      (List.range num_requests_per_session).foldl
        (fun st2 _ =>
          (st2.1 ++ [⟨st2.2, TEST_PROMPTS.getD (st2.2 % TEST_PROMPTS.length) ""⟩],
           st2.2 + 1))
        st)
    (([], 0) : List RequestSpec × Nat)).1

/-- The specification the loop generates for a given counter value. -/
def specFor (rid : Nat) : RequestSpec :=
  ⟨rid, TEST_PROMPTS.getD (rid % TEST_PROMPTS.length) ""⟩

theorem inner_loop_eq (m : Nat) :
    ∀ (tasks : List RequestSpec) (rid : Nat),
      (List.range m).foldl
        (fun st2 _ =>
          (st2.1 ++ [⟨st2.2, TEST_PROMPTS.getD (st2.2 % TEST_PROMPTS.length) ""⟩],
           st2.2 + 1))
        (tasks, rid)
      = (tasks ++ (List.range m).map (fun j => specFor (rid + j)), rid + m) := by
  induction m with
  | zero => intro tasks rid; simp
  | succ k ih =>
      intro tasks rid
      rw [List.range_succ, List.foldl_append, ih]
      simp [List.range_succ, specFor, Nat.add_assoc]

theorem outer_loop_eq (m k : Nat) :
    ∀ (tasks : List RequestSpec) (rid : Nat),
      (List.range k).foldl
        (fun st _ =>
          (List.range m).foldl
            (fun st2 _ =>
              (st2.1 ++ [⟨st2.2, TEST_PROMPTS.getD (st2.2 % TEST_PROMPTS.length) ""⟩],
               st2.2 + 1))
            st)
        (tasks, rid)
      = (tasks ++ (List.range (k * m)).map (fun j => specFor (rid + j)), rid + k * m) := by
  induction k with
  | zero => intro tasks rid; simp
  | succ n ih =>
      intro tasks rid
      rw [List.range_succ, List.foldl_append, ih, List.foldl_cons, List.foldl_nil,
        inner_loop_eq]
      have hr : (n + 1) * m = n * m + m := by ring
      rw [hr, List.range_add]
      simp [List.map_map, Function.comp, Nat.add_assoc]

/-- The task list is exactly the sequence of specifications for counter values
zero up to the product of the two loop bounds. -/
theorem run_concurrent_benchmark_tasks_eq (nc nrps : Nat) :
    run_concurrent_benchmark_tasks nc nrps
      = (List.range (nc * nrps)).map specFor := by
  unfold run_concurrent_benchmark_tasks
  rw [outer_loop_eq]
  simp

/-- C1: one batch run creates exactly N times M request tasks, assigns the
request ids zero up to N times M minus one in increasing submission order
with no duplicates and no gaps, and gives each request the prompt pool entry
at its id modulo the pool size ten. -/
theorem run_concurrent_benchmark_request_ids (N M : Nat) (hN : 0 < N) (hM : 0 < M) :
    (run_concurrent_benchmark_tasks N M).length = N * M
    ∧ (run_concurrent_benchmark_tasks N M).map RequestSpec.request_id
        = List.range (N * M)
    ∧ ∀ s ∈ run_concurrent_benchmark_tasks N M,
        s.prompt = TEST_PROMPTS.getD (s.request_id % 10) "" := by
  rw [run_concurrent_benchmark_tasks_eq]
  refine ⟨by simp, ?_, ?_⟩
  · rw [List.map_map]
    have : RequestSpec.request_id ∘ specFor = id := by
      funext j; rfl
    rw [this, List.map_id]
  · intro s hs
    rcases List.mem_map.mp hs with ⟨j, _, rfl⟩
    rfl

/-- Witness for C1 at two sessions of five requests each. -/
theorem run_concurrent_benchmark_request_ids_witness :
    (run_concurrent_benchmark_tasks 2 5).length = 2 * 5
    ∧ (run_concurrent_benchmark_tasks 2 5).map RequestSpec.request_id
        = List.range (2 * 5)
    ∧ ∀ s ∈ run_concurrent_benchmark_tasks 2 5,
        s.prompt = TEST_PROMPTS.getD (s.request_id % 10) "" :=
  run_concurrent_benchmark_request_ids 2 5 (by decide) (by decide)

/-- All request ids assigned across the batches of one sweep run, in
assignment order: main iterates the concurrency levels and each call of
run_concurrent_benchmark restarts its counter at zero. -/
def sweepRequestIds (levels : List Nat) (rps : Nat) : List Nat :=
  levels.flatMap (fun nc => (run_concurrent_benchmark_tasks nc rps).map RequestSpec.request_id)

/-- C6 counterexample: in a sweep over the levels one and two with five
requests per session, the assigned request ids are not unique across the
run, because the counter restarts at zero for every batch. -/
theorem sweep_request_ids_not_unique :
    ¬ (sweepRequestIds [1, 2] 5).Nodup := by
  decide

/-- C6 amended: every request id assigned during one batch is a non-negative
integer unique within that batch; the counter restarts at zero on each batch,
so uniqueness holds per batch, not across a whole sweep run. -/
theorem batch_request_ids_unique (nc rps : Nat) :
    ((run_concurrent_benchmark_tasks nc rps).map RequestSpec.request_id).Nodup := by
  rw [run_concurrent_benchmark_tasks_eq, List.map_map]
  have : RequestSpec.request_id ∘ specFor = id := by
    funext j; rfl
  rw [this, List.map_id]
  exact List.nodup_range _

/-- Embedding of numpy mean: the sum divided by the length. -/
def npMean (xs : List ℚ) : ℚ :=
  xs.sum / xs.length

/-- Embedding of numpy min on a non-empty sample; zero on the empty list,
which the aggregation never reaches. -/
def npMin (xs : List ℚ) : ℚ :=
  match xs with
  | [] => 0
  | x :: t => t.foldl min x

/-- Embedding of numpy max on a non-empty sample; zero on the empty list,
which the aggregation never reaches. -/
def npMax (xs : List ℚ) : ℚ :=
  match xs with
  | [] => 0
  | x :: t => t.foldl max x

/-- Ascending sort of the sample, as numpy percentile performs internally. -/
def npSort (xs : List ℚ) : List ℚ :=
  xs.insertionSort (· ≤ ·)

/-- Linear interpolation on a sorted sample at a fractional position: the
value between the entries at the floor of the position and at the next
index (clamped to the last index), weighted by the fractional part. This is
the numpy default interpolation rule for percentiles. -/
def interp (s : List ℚ) (pos : ℚ) : ℚ :=
  let i : Nat := (⌊pos⌋).toNat
  let lo := s.getD i 0
  let hi := s.getD (min (i + 1) (s.length - 1)) 0
  lo + (pos - (i : ℚ)) * (hi - lo)

/-- Embedding of numpy percentile with the default linear interpolation:
sort the sample, place the q-th percentile at position q times (n minus one)
over one hundred, and interpolate linearly between the two neighbouring
entries. Numpy median equals this rule at q equal fifty. -/
def npPercentile (xs : List ℚ) (q : ℚ) : ℚ :=
  let s := npSort xs
  if s.length = 0 then 0
  else interp s (q * ((s.length : ℚ) - 1) / 100)

/-- The aggregate statistics record built by analyze_results. -/
structure Stats where
  num_concurrent : Nat
  total_requests : Nat
  successful_requests : Nat
  failed_requests : Nat
  total_time : ℚ
  avg_latency : ℚ
  median_latency : ℚ
  p95_latency : ℚ
  p99_latency : ℚ
  min_latency : ℚ
  max_latency : ℚ
  avg_tokens_per_second : ℚ
  total_tokens_generated : Nat
  overall_throughput : ℚ
deriving DecidableEq

/-- The statistics record analyze_results builds once at least one outcome
succeeded (kubernetes script lines 145-164, kind script lines 132-151). -/
def computeStats (results : List RequestOutcome) (total_time : ℚ)
    (num_concurrent : Nat) : Stats :=
  let successful := results.filter (fun r => r.success)
  let failed := results.filter (fun r => !r.success)
  let latencies := successful.map (fun r => r.latency)
  let tokens_per_second := successful.map (fun r => r.tokens_per_second)
  let completion_tokens := successful.map (fun r => r.completion_tokens)
  let totalTokens : Nat := completion_tokens.sum
  { num_concurrent := num_concurrent
    total_requests := results.length
    successful_requests := successful.length
    failed_requests := failed.length
    total_time := total_time
    avg_latency := npMean latencies
    median_latency := npPercentile latencies 50
    p95_latency := npPercentile latencies 95
    p99_latency := npPercentile latencies 99
    min_latency := npMin latencies
    max_latency := npMax latencies
    avg_tokens_per_second := npMean tokens_per_second
    total_tokens_generated := totalTokens
    overall_throughput :=
      if 0 < total_time then ((totalTokens : ℚ) / total_time) else 0 }

/-- Embedding of analyze_results (kubernetes script lines 135-166, kind
script lines 121-151): partition the outcomes, return none when no outcome
succeeded, otherwise the full statistics record. -/
def analyze_results (results : List RequestOutcome) (total_time : ℚ)
    (num_concurrent : Nat) : Option Stats :=
  let successful := results.filter (fun r => r.success)
  if successful.isEmpty then none
  else some (computeStats results total_time num_concurrent)

theorem analyze_results_eq_none_iff (results : List RequestOutcome)
    (total_time : ℚ) (num_concurrent : Nat) :
    analyze_results results total_time num_concurrent = none
      ↔ ∀ r ∈ results, r.success = false := by
  unfold analyze_results
  dsimp only
  split
  · next h =>
      simp only [true_iff]
      intro r hr
      rw [List.isEmpty_iff] at h
      by_contra hne
      have hmem : r ∈ results.filter (fun r => r.success) :=
        List.mem_filter.mpr ⟨hr, by simpa using hne⟩
      rw [h] at hmem
      exact absurd hmem (List.not_mem_nil r)
  · next h =>
      constructor
      · intro hcontra
        exact absurd hcontra (by simp)
      · intro hall
        exfalso
        apply h
        rw [List.isEmpty_iff, List.filter_eq_nil_iff]
        intro r hr
        simp [hall r hr]

/-- C3: when no outcome of a batch succeeded the aggregation returns none,
and when at least one succeeded it returns a full statistics record. In this
exact-rational model every field of the record is a defined value, so no
record with undefined entries can be produced. -/
theorem analyze_results_empty_vs_some (results : List RequestOutcome)
    (total_time : ℚ) (num_concurrent : Nat) :
    ((∀ r ∈ results, r.success = false) →
        analyze_results results total_time num_concurrent = none)
    ∧ ((∃ r ∈ results, r.success = true) →
        analyze_results results total_time num_concurrent
          = some (computeStats results total_time num_concurrent)) := by
  constructor
  · intro h
    exact (analyze_results_eq_none_iff results total_time num_concurrent).mpr h
  · rintro ⟨r, hr, hs⟩
    unfold analyze_results
    dsimp only
    split
    · next h =>
        rw [List.isEmpty_iff] at h
        have hmem : r ∈ results.filter (fun r => r.success) :=
          List.mem_filter.mpr ⟨hr, hs⟩
        rw [h] at hmem
        exact absurd hmem (List.not_mem_nil r)
    · rfl

theorem analyze_results_some_eq {results : List RequestOutcome} {t : ℚ} {nc : Nat}
    {stats : Stats} (h : analyze_results results t nc = some stats) :
    stats = computeStats results t nc := by
  unfold analyze_results at h
  dsimp only at h
  split at h
  · exact absurd h (by simp)
  · exact (Option.some.inj h).symm

theorem analyze_results_some_filter_ne {results : List RequestOutcome} {t : ℚ}
    {nc : Nat} {stats : Stats} (h : analyze_results results t nc = some stats) :
    results.filter (fun r => r.success) ≠ [] := by
  unfold analyze_results at h
  dsimp only at h
  split at h
  · exact absurd h (by simp)
  · next hne =>
      intro hnil
      exact hne (List.isEmpty_iff.mpr hnil)

/-- Witness for C3: a fully failed batch aggregates to none, a batch with one
success aggregates to a full record. -/
theorem analyze_results_empty_vs_some_witness :
    analyze_results [send_completion_request "p" 0 (NetResult.exn "boom") 1] 1 1 = none
    ∧ analyze_results [send_completion_request "p" 0 (NetResult.ok ⟨⟨10, 20⟩, "t"⟩) 1] 1 1
        = some (computeStats
            [send_completion_request "p" 0 (NetResult.ok ⟨⟨10, 20⟩, "t"⟩) 1] 1 1) :=
  ⟨(analyze_results_empty_vs_some _ 1 1).1 (by decide),
   (analyze_results_empty_vs_some _ 1 1).2 ⟨_, List.mem_singleton.mpr rfl, rfl⟩⟩

/-- C9: the aggregation is a pure function of its arguments; two invocations
on equal argument triples return equal results, whether records or none. -/
theorem analyze_results_deterministic (r₁ r₂ : List RequestOutcome) (t₁ t₂ : ℚ)
    (c₁ c₂ : Nat) (hr : r₁ = r₂) (ht : t₁ = t₂) (hc : c₁ = c₂) :
    analyze_results r₁ t₁ c₁ = analyze_results r₂ t₂ c₂ := by
  rw [hr, ht, hc]

/-- Witness for C9 at a concrete argument triple. -/
theorem analyze_results_deterministic_witness :
    analyze_results [] 0 0 = analyze_results [] 0 0 :=
  analyze_results_deterministic [] [] 0 0 0 0 rfl rfl rfl

/-- C8: whenever a batch aggregates to a record, its overall_throughput field
is the sum of the successful outcomes completion tokens divided by the
elapsed wall-clock span when the span is positive, and zero when the span is
non-positive; the division is guarded, never reached with a zero span. -/
theorem overall_throughput_guarded (results : List RequestOutcome) (t : ℚ)
    (nc : Nat) (stats : Stats) (h : analyze_results results t nc = some stats) :
    (0 < t → stats.overall_throughput
        = (Nat.cast (((results.filter (fun r => r.success)).map
              (fun r => r.completion_tokens)).sum) : ℚ) / t)
    ∧ (t ≤ 0 → stats.overall_throughput = 0) := by
  have hs := analyze_results_some_eq h
  subst hs
  constructor
  · intro ht
    dsimp only [computeStats]
    rw [if_pos ht]
  · intro ht
    have hnot : ¬ 0 < t := not_lt.mpr ht
    dsimp only [computeStats]
    rw [if_neg hnot]

/-- Witness for C8 at a one-request batch with span one. -/
theorem overall_throughput_guarded_witness :
    (computeStats [send_completion_request "p" 0 (NetResult.ok ⟨⟨10, 20⟩, "t"⟩) 1] 1 1).overall_throughput
      = (Nat.cast ((([send_completion_request "p" 0 (NetResult.ok ⟨⟨10, 20⟩, "t"⟩) 1].filter
            (fun r => r.success)).map (fun r => r.completion_tokens)).sum) : ℚ) / 1 :=
  (overall_throughput_guarded
    [send_completion_request "p" 0 (NetResult.ok ⟨⟨10, 20⟩, "t"⟩) 1] 1 1 _ rfl).1
    (by norm_num)

/-- A successful sample outcome with the given request id and latency, ten
completion tokens, as in the spec scenario for C5. -/
def sampleOutcome (rid : Nat) (lat : ℚ) : RequestOutcome :=
  send_completion_request "p" rid (NetResult.ok ⟨⟨10, 20⟩, "text"⟩) lat

/-- The five-outcome batch of the C5 scenario: latencies one to five seconds,
all successful, ten completion tokens each. -/
def scenarioBatch : List RequestOutcome :=
  [sampleOutcome 0 1, sampleOutcome 1 2, sampleOutcome 2 3,
   sampleOutcome 3 4, sampleOutcome 4 5]

/-- C5: aggregating the scenario batch with elapsed span five seconds yields
average latency three, median latency three, fifty generated tokens and
overall throughput ten. -/
theorem analyze_results_scenario :
    ∃ stats,
      analyze_results scenarioBatch 5 5 = some stats
      ∧ stats.avg_latency = 3
      ∧ stats.median_latency = 3
      ∧ stats.total_tokens_generated = 50
      ∧ stats.overall_throughput = 10 := by
  have hlat : (scenarioBatch.filter (fun r => r.success)).map (fun r => r.latency)
      = [(1 : ℚ), 2, 3, 4, 5] := by decide
  have hct : ((scenarioBatch.filter (fun r => r.success)).map
      (fun r => r.completion_tokens)).sum = 50 := by decide
  refine ⟨computeStats scenarioBatch 5 5, rfl, ?_, ?_, ?_, ?_⟩
  · show npMean ((scenarioBatch.filter (fun r => r.success)).map (fun r => r.latency)) = 3
    rw [hlat]
    norm_num [npMean]
  · show npPercentile
        ((scenarioBatch.filter (fun r => r.success)).map (fun r => r.latency)) 50 = 3
    rw [hlat]
    have hinterp : interp [(1 : ℚ), 2, 3, 4, 5] 2 = 3 := by
      unfold interp
      dsimp only
      have h2 : (⌊(2 : ℚ)⌋).toNat = 2 := by
        norm_num
        decide
      rw [h2]
      rw [show List.getD [(1 : ℚ), 2, 3, 4, 5] 2 0 = 3 from by decide]
      rw [show List.getD [(1 : ℚ), 2, 3, 4, 5]
            (min (2 + 1) ([(1 : ℚ), 2, 3, 4, 5].length - 1)) 0 = 4 from by decide]
      norm_num
    have hsort : npSort [(1 : ℚ), 2, 3, 4, 5] = [(1 : ℚ), 2, 3, 4, 5] := by decide
    unfold npPercentile
    rw [hsort]
    dsimp only
    rw [if_neg (by decide : ¬ ([(1 : ℚ), 2, 3, 4, 5].length = 0))]
    rw [show (50 : ℚ) * ((([(1 : ℚ), 2, 3, 4, 5].length : Nat) : ℚ) - 1) / 100 = 2 from by
      norm_num]
    exact hinterp
  · show ((scenarioBatch.filter (fun r => r.success)).map
        (fun r => r.completion_tokens)).sum = 50
    exact hct
  · show (if (0 : ℚ) < 5
        then (Nat.cast (((scenarioBatch.filter (fun r => r.success)).map
            (fun r => r.completion_tokens)).sum) : ℚ) / 5 else 0) = 10
    rw [hct]
    norm_num

theorem analyze_results_some_of_exists {results : List RequestOutcome} {t : ℚ}
    {nc : Nat} (h : ∃ r ∈ results, r.success = true) :
    analyze_results results t nc = some (computeStats results t nc) := by
  rcases h with ⟨r, hr, hs⟩
  unfold analyze_results
  dsimp only
  split
  · next hemp =>
      rw [List.isEmpty_iff] at hemp
      have hmem : r ∈ results.filter (fun r => r.success) :=
        List.mem_filter.mpr ⟨hr, hs⟩
      rw [hemp] at hmem
      exact absurd hmem (List.not_mem_nil r)
  · rfl

/-- One batch of outcomes as main receives it: run_concurrent_benchmark
builds the task list and asyncio.gather returns one outcome per task in task
order. The network behaviour of every request is the parameter net, indexed
by concurrency level and request id, and the measured latency is lat. -/
def batchResults (net : Nat → Nat → NetResult) (lat : Nat → Nat → ℚ)
    (nc rps : Nat) : List RequestOutcome :=
  (run_concurrent_benchmark_tasks nc rps).map
    (fun s => send_completion_request s.prompt s.request_id
        (net nc s.request_id) (lat nc s.request_id))

/-- The level loop of main (kubernetes script lines 325-331, kind script
lines 280-286): for each concurrency level run one batch, aggregate it, and
append the statistics record only when the aggregation returned one. -/
def mainSweep (levels : List Nat) (rps : Nat) (net : Nat → Nat → NetResult)
    (lat : Nat → Nat → ℚ) (elapsed : Nat → ℚ) : List Stats :=
  levels.foldl
    (fun all_stats nc =>
      match analyze_results (batchResults net lat nc rps) (elapsed nc) nc with
      | some stats => all_stats ++ [stats]
      | none => all_stats)
    []

theorem mainSweep_foldl_eq (rps : Nat) (net : Nat → Nat → NetResult)
    (lat : Nat → Nat → ℚ) (elapsed : Nat → ℚ) :
    ∀ (levels : List Nat) (acc : List Stats),
      levels.foldl
        (fun all_stats nc =>
          match analyze_results (batchResults net lat nc rps) (elapsed nc) nc with
          | some stats => all_stats ++ [stats]
          | none => all_stats)
        acc
      = acc ++ levels.filterMap (fun nc =>
          analyze_results (batchResults net lat nc rps) (elapsed nc) nc) := by
  intro levels
  induction levels with
  | nil => intro acc; simp
  | cons x xs ih =>
      intro acc
      rw [List.foldl_cons, List.filterMap_cons]
      cases hg : analyze_results (batchResults net lat x rps) (elapsed x) x with
      | none => dsimp only; rw [ih]
      | some s => dsimp only; rw [ih]; simp

theorem mainSweep_eq_filterMap (levels : List Nat) (rps : Nat)
    (net : Nat → Nat → NetResult) (lat : Nat → Nat → ℚ) (elapsed : Nat → ℚ) :
    mainSweep levels rps net lat elapsed
      = levels.filterMap (fun nc =>
          analyze_results (batchResults net lat nc rps) (elapsed nc) nc) := by
  unfold mainSweep
  exact (mainSweep_foldl_eq rps net lat elapsed levels []).trans (List.nil_append _)

/-- C4: a level whose aggregation signals the empty result is omitted from
the sweep output while later levels are still run and included in order (the
output is the filterMap of the aggregation over the ordered level list); in
particular, over the levels one and two, when every level-one outcome fails
and some level-two outcome succeeds, the run holds exactly one record, the
one for level two. -/
theorem mainSweep_skips_empty_levels (levels : List Nat) (rps : Nat)
    (net : Nat → Nat → NetResult) (lat : Nat → Nat → ℚ) (elapsed : Nat → ℚ) :
    (mainSweep levels rps net lat elapsed
        = levels.filterMap (fun nc =>
            analyze_results (batchResults net lat nc rps) (elapsed nc) nc))
    ∧ ((∀ r ∈ batchResults net lat 1 rps, r.success = false) →
        (∃ r ∈ batchResults net lat 2 rps, r.success = true) →
        ∃ s, mainSweep [1, 2] rps net lat elapsed = [s] ∧ s.num_concurrent = 2) := by
  constructor
  · exact mainSweep_eq_filterMap levels rps net lat elapsed
  · intro hfail hsucc
    have h1 : analyze_results (batchResults net lat 1 rps) (elapsed 1) 1 = none :=
      (analyze_results_eq_none_iff _ _ _).mpr hfail
    have h2 : analyze_results (batchResults net lat 2 rps) (elapsed 2) 2
        = some (computeStats (batchResults net lat 2 rps) (elapsed 2) 2) :=
      analyze_results_some_of_exists hsucc
    refine ⟨computeStats (batchResults net lat 2 rps) (elapsed 2) 2, ?_, rfl⟩
    rw [mainSweep_eq_filterMap]
    rw [List.filterMap_cons, h1, List.filterMap_cons, h2, List.filterMap_nil]

/-- Witness for C4: a network that rejects every level-one request and
serves every level-two request. -/
theorem mainSweep_skips_empty_levels_witness :
    ∃ s,
      mainSweep [1, 2] 1
        (fun nc _ => if nc = 1 then NetResult.exn "down" else NetResult.ok ⟨⟨10, 20⟩, "t"⟩)
        (fun _ _ => 1) (fun _ => 1) = [s]
      ∧ s.num_concurrent = 2 :=
  (mainSweep_skips_empty_levels [1, 2] 1
    (fun nc _ => if nc = 1 then NetResult.exn "down" else NetResult.ok ⟨⟨10, 20⟩, "t"⟩)
    (fun _ _ => 1) (fun _ => 1)).2 (by decide) (by decide)

/-- C7 counterexample: the code performs no configuration validation and no
rejection of zero work; a batch invoked with concurrency level zero, or with
zero requests per session, silently returns the empty result set, and a
sweep over an empty level list silently returns the empty run. -/
theorem zero_work_not_rejected :
    run_concurrent_benchmark_tasks 0 5 = []
    ∧ run_concurrent_benchmark_tasks 4 0 = []
    ∧ mainSweep [] 5 (fun _ _ => NetResult.exn "e") (fun _ _ => 1) (fun _ => 1) = [] := by
  refine ⟨?_, ?_, rfl⟩
  · rw [run_concurrent_benchmark_tasks_eq]; rfl
  · rw [run_concurrent_benchmark_tasks_eq]; rfl

/-- C7 amended: a malformed configuration is not rejected; the sweep runs
zero work silently. A concurrency level of zero or a requests-per-session
value of zero produces an empty task list, the aggregation of an empty batch
signals the empty result, and an empty level list produces an empty run. -/
theorem zero_work_runs_silently (rps nc : Nat) (net : Nat → Nat → NetResult)
    (lat : Nat → Nat → ℚ) (elapsed : Nat → ℚ) (t : ℚ) (c : Nat) :
    run_concurrent_benchmark_tasks 0 rps = []
    ∧ run_concurrent_benchmark_tasks nc 0 = []
    ∧ analyze_results [] t c = none
    ∧ mainSweep [] rps net lat elapsed = [] := by
  refine ⟨?_, ?_, rfl, rfl⟩
  · rw [run_concurrent_benchmark_tasks_eq]
    simp
  · rw [run_concurrent_benchmark_tasks_eq]
    simp

theorem sorted_getD_mono {s : List ℚ} (hs : List.Sorted (· ≤ ·) s) {i j : Nat}
    (hij : i ≤ j) (hj : j < s.length) : s.getD i 0 ≤ s.getD j 0 := by
  have hi : i < s.length := lt_of_le_of_lt hij hj
  rw [List.getD_eq_getElem s 0 hi, List.getD_eq_getElem s 0 hj]
  rcases Nat.lt_or_ge i j with hlt | hge
  · have := List.pairwise_iff_get.mp hs ⟨i, hi⟩ ⟨j, hj⟩ hlt
    simpa using this
  · have hij2 : i = j := le_antisymm hij hge
    subst hij2
    exact le_refl _

theorem foldl_min_le_init (t : List ℚ) : ∀ x : ℚ, t.foldl min x ≤ x := by
  induction t with
  | nil => intro x; exact le_refl x
  | cons y ys ih => intro x; exact le_trans (ih (min x y)) (min_le_left x y)

theorem foldl_min_le_mem (t : List ℚ) : ∀ (x y : ℚ), y ∈ t → t.foldl min x ≤ y := by
  induction t with
  | nil => intro x y hy; exact absurd hy (List.not_mem_nil y)
  | cons z zs ih =>
      intro x y hy
      rcases List.mem_cons.mp hy with rfl | hy2
      · exact le_trans (foldl_min_le_init zs (min x y)) (min_le_right x y)
      · exact ih (min x z) y hy2

theorem npMin_le {xs : List ℚ} {y : ℚ} (hy : y ∈ xs) : npMin xs ≤ y := by
  cases xs with
  | nil => exact absurd hy (List.not_mem_nil y)
  | cons x t =>
      rcases List.mem_cons.mp hy with rfl | h
      · exact foldl_min_le_init t y
      · exact foldl_min_le_mem t x y h

theorem init_le_foldl_max (t : List ℚ) : ∀ x : ℚ, x ≤ t.foldl max x := by
  induction t with
  | nil => intro x; exact le_refl x
  | cons y ys ih => intro x; exact le_trans (le_max_left x y) (ih (max x y))

theorem mem_le_foldl_max (t : List ℚ) : ∀ (x y : ℚ), y ∈ t → y ≤ t.foldl max x := by
  induction t with
  | nil => intro x y hy; exact absurd hy (List.not_mem_nil y)
  | cons z zs ih =>
      intro x y hy
      rcases List.mem_cons.mp hy with rfl | hy2
      · exact le_trans (le_max_right x y) (init_le_foldl_max zs (max x y))
      · exact ih (max x z) y hy2

theorem le_npMax {xs : List ℚ} {y : ℚ} (hy : y ∈ xs) : y ≤ npMax xs := by
  cases xs with
  | nil => exact absurd hy (List.not_mem_nil y)
  | cons x t =>
      rcases List.mem_cons.mp hy with rfl | h
      · exact init_le_foldl_max t y
      · exact mem_le_foldl_max t x y h

theorem length_mul_le_sum {xs : List ℚ} {a : ℚ} (h : ∀ y ∈ xs, a ≤ y) :
    (xs.length : ℚ) * a ≤ xs.sum := by
  induction xs with
  | nil => simp
  | cons x t ih =>
      have h1 : a ≤ x := h x (List.mem_cons_self x t)
      have h2 : (t.length : ℚ) * a ≤ t.sum :=
        ih (fun y hy => h y (List.mem_cons_of_mem x hy))
      simp only [List.length_cons, List.sum_cons]
      push_cast
      nlinarith

theorem sum_le_length_mul {xs : List ℚ} {b : ℚ} (h : ∀ y ∈ xs, y ≤ b) :
    xs.sum ≤ (xs.length : ℚ) * b := by
  induction xs with
  | nil => simp
  | cons x t ih =>
      have h1 : x ≤ b := h x (List.mem_cons_self x t)
      have h2 : t.sum ≤ (t.length : ℚ) * b :=
        ih (fun y hy => h y (List.mem_cons_of_mem x hy))
      simp only [List.length_cons, List.sum_cons]
      push_cast
      nlinarith

theorem npMin_le_npMean {xs : List ℚ} (hne : xs ≠ []) : npMin xs ≤ npMean xs := by
  have hlen : 0 < (xs.length : ℚ) := by
    have := List.length_pos.mpr hne
    exact_mod_cast this
  unfold npMean
  rw [le_div_iff₀ hlen]
  have h := @length_mul_le_sum xs (npMin xs) (fun y hy => npMin_le hy)
  linarith [h]

theorem npMean_le_npMax {xs : List ℚ} (hne : xs ≠ []) : npMean xs ≤ npMax xs := by
  have hlen : 0 < (xs.length : ℚ) := by
    have := List.length_pos.mpr hne
    exact_mod_cast this
  unfold npMean
  rw [div_le_iff₀ hlen]
  have h := @sum_le_length_mul xs (npMax xs) (fun y hy => le_npMax hy)
  linarith [h]

theorem getD_mem {s : List ℚ} {i : Nat} (hi : i < s.length) : s.getD i 0 ∈ s := by
  rw [List.getD_eq_getElem s 0 hi]
  exact List.getElem_mem hi

theorem floor_toNat_facts {pos : ℚ} (h0 : 0 ≤ pos) :
    ((⌊pos⌋.toNat : ℚ) ≤ pos) ∧ (pos < (⌊pos⌋.toNat : ℚ) + 1) := by
  have hfl : 0 ≤ ⌊pos⌋ := Int.floor_nonneg.mpr h0
  have hcast : (⌊pos⌋.toNat : ℚ) = ((⌊pos⌋ : ℤ) : ℚ) := by
    rw [← Int.toNat_of_nonneg hfl]
    push_cast
    rw [Int.toNat_of_nonneg hfl]
  exact ⟨by rw [hcast]; exact Int.floor_le pos,
         by rw [hcast]; exact Int.lt_floor_add_one pos⟩

theorem floor_toNat_le {pos : ℚ} {n : Nat} (h0 : 0 ≤ pos) (hn : 0 < n)
    (h1 : pos ≤ (n : ℚ) - 1) : ⌊pos⌋.toNat ≤ n - 1 := by
  have hone : (1 : ℕ) ≤ n := hn
  have hsub : ((n - 1 : ℕ) : ℚ) = (n : ℚ) - 1 := by
    push_cast [Nat.cast_sub hone]
    ring
  have hfloor : ⌊pos⌋ ≤ ⌊((n - 1 : ℕ) : ℚ)⌋ :=
    Int.floor_le_floor (by rw [hsub]; exact h1)
  rw [Int.floor_natCast] at hfloor
  exact Int.toNat_le.mpr hfloor

theorem interp_between {s : List ℚ} (hs : List.Sorted (· ≤ ·) s) (hn : s ≠ [])
    {pos : ℚ} (h0 : 0 ≤ pos) (h1 : pos ≤ (s.length : ℚ) - 1) :
    s.getD (⌊pos⌋).toNat 0 ≤ interp s pos
    ∧ interp s pos ≤ s.getD (min ((⌊pos⌋).toNat + 1) (s.length - 1)) 0 := by
  have hlen : 0 < s.length := List.length_pos.mpr hn
  obtain ⟨hle, hlt⟩ := floor_toNat_facts h0
  have hin : (⌊pos⌋).toNat ≤ s.length - 1 := floor_toNat_le h0 hlen h1
  have hminlt : min ((⌊pos⌋).toNat + 1) (s.length - 1) < s.length :=
    lt_of_le_of_lt (min_le_right _ _) (Nat.sub_lt hlen Nat.one_pos)
  have hile : (⌊pos⌋).toNat ≤ min ((⌊pos⌋).toNat + 1) (s.length - 1) :=
    le_min (Nat.le_succ _) hin
  have hd : s.getD (⌊pos⌋).toNat 0 ≤ s.getD (min ((⌊pos⌋).toNat + 1) (s.length - 1)) 0 :=
    sorted_getD_mono hs hile hminlt
  unfold interp
  dsimp only
  constructor
  · have hprod : 0 ≤ (pos - ((⌊pos⌋).toNat : ℚ))
        * (s.getD (min ((⌊pos⌋).toNat + 1) (s.length - 1)) 0 - s.getD (⌊pos⌋).toNat 0) :=
      mul_nonneg (by linarith) (by linarith)
    linarith
  · have hfrac : pos - ((⌊pos⌋).toNat : ℚ) ≤ 1 := by linarith
    have hprod : (pos - ((⌊pos⌋).toNat : ℚ))
        * (s.getD (min ((⌊pos⌋).toNat + 1) (s.length - 1)) 0 - s.getD (⌊pos⌋).toNat 0)
        ≤ 1 * (s.getD (min ((⌊pos⌋).toNat + 1) (s.length - 1)) 0 - s.getD (⌊pos⌋).toNat 0) :=
      mul_le_mul_of_nonneg_right hfrac (by linarith)
    linarith

theorem interp_mono {s : List ℚ} (hs : List.Sorted (· ≤ ·) s) (hn : s ≠ [])
    {p p' : ℚ} (h0 : 0 ≤ p) (hpp : p ≤ p') (h1 : p' ≤ (s.length : ℚ) - 1) :
    interp s p ≤ interp s p' := by
  have hlen : 0 < s.length := List.length_pos.mpr hn
  have h0' : 0 ≤ p' := le_trans h0 hpp
  have h1p : p ≤ (s.length : ℚ) - 1 := le_trans hpp h1
  have hii : (⌊p⌋).toNat ≤ (⌊p'⌋).toNat :=
    Int.toNat_le_toNat (Int.floor_le_floor hpp)
  rcases Nat.eq_or_lt_of_le hii with heq | hltii
  · have hin : (⌊p⌋).toNat ≤ s.length - 1 := floor_toNat_le h0 hlen h1p
    have hminlt : min ((⌊p⌋).toNat + 1) (s.length - 1) < s.length :=
      lt_of_le_of_lt (min_le_right _ _) (Nat.sub_lt hlen Nat.one_pos)
    have hile : (⌊p⌋).toNat ≤ min ((⌊p⌋).toNat + 1) (s.length - 1) :=
      le_min (Nat.le_succ _) hin
    have hd : s.getD (⌊p⌋).toNat 0
        ≤ s.getD (min ((⌊p⌋).toNat + 1) (s.length - 1)) 0 :=
      sorted_getD_mono hs hile hminlt
    unfold interp
    dsimp only
    rw [← heq]
    have hsub : p - ((⌊p⌋).toNat : ℚ) ≤ p' - ((⌊p⌋).toNat : ℚ) := by linarith
    have hprod := mul_le_mul_of_nonneg_right hsub
      (by linarith :
        (0 : ℚ) ≤ s.getD (min ((⌊p⌋).toNat + 1) (s.length - 1)) 0 - s.getD (⌊p⌋).toNat 0)
    linarith
  · have hup := (interp_between hs hn h0 h1p).2
    have hlow := (interp_between hs hn h0' h1).1
    have hi'lt : (⌊p'⌋).toNat < s.length :=
      lt_of_le_of_lt (floor_toNat_le h0' hlen h1) (Nat.sub_lt hlen Nat.one_pos)
    have hmid : s.getD (min ((⌊p⌋).toNat + 1) (s.length - 1)) 0 ≤ s.getD (⌊p'⌋).toNat 0 :=
      sorted_getD_mono hs (le_trans (min_le_left _ _) (Nat.succ_le_of_lt hltii)) hi'lt
    exact le_trans hup (le_trans hmid hlow)

theorem npSort_sorted (xs : List ℚ) : List.Sorted (· ≤ ·) (npSort xs) :=
  List.sorted_insertionSort _ xs

theorem npSort_perm (xs : List ℚ) : (npSort xs).Perm xs :=
  List.perm_insertionSort _ xs

theorem npSort_ne_nil {xs : List ℚ} (h : xs ≠ []) : npSort xs ≠ [] := by
  intro hnil
  apply h
  have hlen := (npSort_perm xs).length_eq
  rw [hnil] at hlen
  exact List.length_eq_zero.mp hlen.symm

theorem npPercentile_between {xs : List ℚ} (hne : xs ≠ []) {q : ℚ}
    (h0 : 0 ≤ q) (h100 : q ≤ 100) :
    npMin xs ≤ npPercentile xs q ∧ npPercentile xs q ≤ npMax xs := by
  have hs := npSort_sorted xs
  have hperm := npSort_perm xs
  have hsne := npSort_ne_nil hne
  have hlen : 0 < (npSort xs).length := List.length_pos.mpr hsne
  have hlenq : (1 : ℚ) ≤ ((npSort xs).length : ℚ) := by exact_mod_cast hlen
  unfold npPercentile
  dsimp only
  rw [if_neg (Nat.pos_iff_ne_zero.mp hlen)]
  have hpos0 : 0 ≤ q * (((npSort xs).length : ℚ) - 1) / 100 :=
    div_nonneg (mul_nonneg h0 (by linarith)) (by norm_num)
  have hpos1 : q * (((npSort xs).length : ℚ) - 1) / 100 ≤ ((npSort xs).length : ℚ) - 1 := by
    rw [div_le_iff₀ (by norm_num : (0 : ℚ) < 100)]
    nlinarith
  obtain ⟨hlow, hup⟩ := interp_between hs hsne hpos0 hpos1
  have hilt : (⌊q * (((npSort xs).length : ℚ) - 1) / 100⌋).toNat < (npSort xs).length :=
    lt_of_le_of_lt (floor_toNat_le hpos0 hlen hpos1) (Nat.sub_lt hlen Nat.one_pos)
  have hminlt : min ((⌊q * (((npSort xs).length : ℚ) - 1) / 100⌋).toNat + 1)
      ((npSort xs).length - 1) < (npSort xs).length :=
    lt_of_le_of_lt (min_le_right _ _) (Nat.sub_lt hlen Nat.one_pos)
  constructor
  · exact le_trans (npMin_le (hperm.mem_iff.mp (getD_mem hilt))) hlow
  · exact le_trans hup (le_npMax (hperm.mem_iff.mp (getD_mem hminlt)))

theorem npPercentile_mono {xs : List ℚ} (hne : xs ≠ []) {q q' : ℚ}
    (h0 : 0 ≤ q) (hqq : q ≤ q') (h100 : q' ≤ 100) :
    npPercentile xs q ≤ npPercentile xs q' := by
  have hs := npSort_sorted xs
  have hsne := npSort_ne_nil hne
  have hlen : 0 < (npSort xs).length := List.length_pos.mpr hsne
  have hlenq : (1 : ℚ) ≤ ((npSort xs).length : ℚ) := by exact_mod_cast hlen
  unfold npPercentile
  dsimp only
  rw [if_neg (Nat.pos_iff_ne_zero.mp hlen), if_neg (Nat.pos_iff_ne_zero.mp hlen)]
  have hpos0 : 0 ≤ q * (((npSort xs).length : ℚ) - 1) / 100 :=
    div_nonneg (mul_nonneg h0 (by linarith)) (by norm_num)
  have hmul : q * (((npSort xs).length : ℚ) - 1)
      ≤ q' * (((npSort xs).length : ℚ) - 1) :=
    mul_le_mul_of_nonneg_right hqq (by linarith)
  have hposle : q * (((npSort xs).length : ℚ) - 1) / 100
      ≤ q' * (((npSort xs).length : ℚ) - 1) / 100 := by
    rw [div_le_div_iff (by norm_num : (0 : ℚ) < 100) (by norm_num : (0 : ℚ) < 100)]
    nlinarith
  have hpos1 : q' * (((npSort xs).length : ℚ) - 1) / 100 ≤ ((npSort xs).length : ℚ) - 1 := by
    rw [div_le_iff₀ (by norm_num : (0 : ℚ) < 100)]
    nlinarith
  exact interp_mono hs hsne hpos0 hposle hpos1

/-- C10: whenever a batch aggregates to a record, the latency statistics are
ordered: the minimum is at most the median, the median at most the 95th
percentile, that at most the 99th percentile, that at most the maximum, and
the average lies between the minimum and the maximum. -/
theorem latency_stats_ordered (results : List RequestOutcome) (t : ℚ) (nc : Nat)
    (stats : Stats) (h : analyze_results results t nc = some stats) :
    stats.min_latency ≤ stats.median_latency
    ∧ stats.median_latency ≤ stats.p95_latency
    ∧ stats.p95_latency ≤ stats.p99_latency
    ∧ stats.p99_latency ≤ stats.max_latency
    ∧ stats.min_latency ≤ stats.avg_latency
    ∧ stats.avg_latency ≤ stats.max_latency := by
  have hfil := analyze_results_some_filter_ne h
  have hst := analyze_results_some_eq h
  subst hst
  have hne : (results.filter (fun r => r.success)).map (fun r => r.latency) ≠ [] := by
    intro hmape
    exact hfil (List.map_eq_nil_iff.mp hmape)
  refine ⟨?_, ?_, ?_, ?_, ?_, ?_⟩
  · exact (npPercentile_between hne (by norm_num) (by norm_num)).1
  · exact npPercentile_mono hne (by norm_num) (by norm_num) (by norm_num)
  · exact npPercentile_mono hne (by norm_num) (by norm_num) (by norm_num)
  · exact (npPercentile_between hne (by norm_num) (by norm_num)).2
  · exact npMin_le_npMean hne
  · exact npMean_le_npMax hne

/-- Witness for C10 at a one-request batch. -/
theorem latency_stats_ordered_witness :
    (computeStats [sampleOutcome 0 1] 1 1).min_latency
        ≤ (computeStats [sampleOutcome 0 1] 1 1).median_latency
    ∧ (computeStats [sampleOutcome 0 1] 1 1).median_latency
        ≤ (computeStats [sampleOutcome 0 1] 1 1).p95_latency
    ∧ (computeStats [sampleOutcome 0 1] 1 1).p95_latency
        ≤ (computeStats [sampleOutcome 0 1] 1 1).p99_latency
    ∧ (computeStats [sampleOutcome 0 1] 1 1).p99_latency
        ≤ (computeStats [sampleOutcome 0 1] 1 1).max_latency
    ∧ (computeStats [sampleOutcome 0 1] 1 1).min_latency
        ≤ (computeStats [sampleOutcome 0 1] 1 1).avg_latency
    ∧ (computeStats [sampleOutcome 0 1] 1 1).avg_latency
        ≤ (computeStats [sampleOutcome 0 1] 1 1).max_latency :=
  latency_stats_ordered [sampleOutcome 0 1] 1 1 _ rfl

end LlmBenchmark
